import Mathlib

/-!
Shallow embedding of the process-supervisor core of the repository:
`scripts/manage.ts` (PID registry, start/stop lifecycle actions) and
`src/index.ts` (persisted port, bounded port allocation, port-release wait).
File contents are modelled as `Option (List Char)` (absent file or its
characters); the host OS process table is an explicit `alive : Int → Bool`
oracle; port availability is an explicit assignment `Nat → Bool`.
-/

namespace CustomWallet

/-! ### Decimal parsing: model of JS `Number.parseInt(s, 10)` -/

/-- The decimal digit characters, used to model JS number-to-string. -/
def digitChar : Nat → Char
  | 0 => '0'
  | 1 => '1'
  | 2 => '2'
  | 3 => '3'
  | 4 => '4'
  | 5 => '5'
  | 6 => '6'
  | 7 => '7'
  | 8 => '8'
  | 9 => '9'
  | _ => '?'

/-- Accumulating loop of parseInt: consume the longest digit prefix. -/
def parseDigitsGo : List Char → Nat → Nat
  | [], acc => acc
  | c :: cs, acc => if c.isDigit then parseDigitsGo cs (acc * 10 + (c.toNat - 48)) else acc

/-- Longest digit prefix as a number; `none` models NaN (no leading digit). -/
def parseDigits : List Char → Option Nat
  | [] => none
  | c :: cs => if c.isDigit then some (parseDigitsGo (c :: cs) 0) else none

/-- JS whitespace test used by trim (the characters relevant here). -/
def isJsSpace (c : Char) : Bool := c = ' ' || c = '\t' || c = '\n' || c = '\r'

/-- `String.prototype.trim`: strip whitespace from both ends. -/
def trimChars (cs : List Char) : List Char :=
  ((cs.dropWhile isJsSpace).reverse.dropWhile isJsSpace).reverse

/-- `Number.parseInt(s, 10)` on already-trimmed content: optional sign, then
the longest digit prefix; `none` models NaN. -/
def parseIntChars (cs : List Char) : Option Int :=
  match cs with
  | [] => none
  | c :: rest =>
    if c = '-' then (parseDigits rest).map (fun n => -(n : Int))
    else if c = '+' then (parseDigits rest).map (fun n => (n : Int))
    else (parseDigits (c :: rest)).map (fun n => (n : Int))

/-! ### Decimal printing: model of JS template interpolation of a number -/

/-- Decimal digits of `n` prepended to `tl`. -/
def natDecimalAux (n : Nat) (tl : List Char) : List Char :=
  if n < 10 then digitChar n :: tl
  else natDecimalAux (n / 10) (digitChar (n % 10) :: tl)
termination_by n
decreasing_by exact Nat.div_lt_self (by omega) (by omega)

/-- Decimal rendering of a natural number. -/
def natDecimal (n : Nat) : List Char := natDecimalAux n []

/-- JS rendering of an integer-valued number, as in a template literal. -/
def intToChars (i : Int) : List Char :=
  if i < 0 then '-' :: natDecimal i.natAbs else natDecimal i.toNat

/-! ### Round-trip lemmas for parse/print -/

lemma parseDigitsGo_digitChar (m : Nat) (hm : m < 10) (tl : List Char) (acc : Nat) :
    parseDigitsGo (digitChar m :: tl) acc = parseDigitsGo tl (acc * 10 + m) := by
  interval_cases m <;> rfl

lemma isDigit_digitChar (m : Nat) (hm : m < 10) : (digitChar m).isDigit = true := by
  interval_cases m <;> rfl

lemma natDecimalAux_shape (n : Nat) :
    ∀ tl, ∃ m tl', m < 10 ∧ natDecimalAux n tl = digitChar m :: tl' := by
  induction n using Nat.strong_induction_on with
  | _ n ih =>
    intro tl
    rw [natDecimalAux]
    by_cases h : n < 10
    · exact ⟨n, tl, h, by rw [if_pos h]⟩
    · obtain ⟨m, tl', hm, hs⟩ := ih (n / 10) (Nat.div_lt_self (by omega) (by omega))
        (digitChar (n % 10) :: tl)
      exact ⟨m, tl', hm, by rw [if_neg h, hs]⟩

lemma parseDigitsGo_natDecimalAux (n : Nat) :
    ∀ tl acc, ∃ k, parseDigitsGo (natDecimalAux n tl) acc = parseDigitsGo tl (acc * 10 ^ k + n) := by
  induction n using Nat.strong_induction_on with
  | _ n ih =>
    intro tl acc
    rw [natDecimalAux]
    by_cases h : n < 10
    · rw [if_pos h]
      exact ⟨1, by rw [parseDigitsGo_digitChar n h, pow_one]⟩
    · rw [if_neg h]
      obtain ⟨k, hk⟩ := ih (n / 10) (Nat.div_lt_self (by omega) (by omega))
        (digitChar (n % 10) :: tl) acc
      refine ⟨k + 1, ?_⟩
      rw [hk, parseDigitsGo_digitChar (n % 10) (Nat.mod_lt _ (by omega)) tl]
      congr 1
      have hpow : acc * 10 ^ (k + 1) = acc * 10 ^ k * 10 := by ring
      rw [hpow]
      generalize acc * 10 ^ k = A
      omega

lemma parseDigits_natDecimal (n : Nat) : parseDigits (natDecimal n) = some n := by
  obtain ⟨m, tl', hm, hshape⟩ := natDecimalAux_shape n []
  obtain ⟨k, hk⟩ := parseDigitsGo_natDecimalAux n [] 0
  have hval : parseDigitsGo (natDecimal n) 0 = n := by
    rw [natDecimal, hk]
    simp [parseDigitsGo]
  rw [natDecimal] at hval ⊢
  rw [hshape] at hval ⊢
  rw [parseDigits, if_pos (isDigit_digitChar m hm), hval]

lemma natDecimalAux_chars (n : Nat) :
    ∀ tl c, c ∈ natDecimalAux n tl → (∃ m, m < 10 ∧ c = digitChar m) ∨ c ∈ tl := by
  induction n using Nat.strong_induction_on with
  | _ n ih =>
    intro tl c hc
    rw [natDecimalAux] at hc
    by_cases h : n < 10
    · rw [if_pos h] at hc
      rcases List.mem_cons.mp hc with h1 | h1
      · exact Or.inl ⟨n, h, h1⟩
      · exact Or.inr h1
    · rw [if_neg h] at hc
      rcases ih (n / 10) (Nat.div_lt_self (by omega) (by omega)) _ c hc with h1 | h1
      · exact Or.inl h1
      · rcases List.mem_cons.mp h1 with h2 | h2
        · exact Or.inl ⟨n % 10, Nat.mod_lt _ (by omega), h2⟩
        · exact Or.inr h2

lemma isJsSpace_digitChar (m : Nat) (hm : m < 10) : isJsSpace (digitChar m) = false := by
  interval_cases m <;> rfl

lemma dropWhile_eq_self_of_all (p : Char → Bool) (cs : List Char)
    (h : ∀ c ∈ cs, p c = false) : cs.dropWhile p = cs := by
  cases cs with
  | nil => rfl
  | cons c cs' => simp [List.dropWhile_cons, h c (by simp)]

lemma trimChars_eq_self (cs : List Char) (h : ∀ c ∈ cs, isJsSpace c = false) :
    trimChars cs = cs := by
  unfold trimChars
  rw [dropWhile_eq_self_of_all _ _ h,
    dropWhile_eq_self_of_all _ _ (fun c hc => h c (List.mem_reverse.mp hc)),
    List.reverse_reverse]

lemma no_space_intToChars (i : Int) : ∀ c ∈ intToChars i, isJsSpace c = false := by
  intro c hc
  unfold intToChars at hc
  by_cases hi : i < 0
  · rw [if_pos hi] at hc
    rcases List.mem_cons.mp hc with h1 | h1
    · rw [h1]; rfl
    · rcases natDecimalAux_chars _ _ _ h1 with ⟨m, hm, he⟩ | h2
      · rw [he]; exact isJsSpace_digitChar m hm
      · exact absurd h2 (List.not_mem_nil c)
  · rw [if_neg hi] at hc
    rcases natDecimalAux_chars _ _ _ hc with ⟨m, hm, he⟩ | h2
    · rw [he]; exact isJsSpace_digitChar m hm
    · exact absurd h2 (List.not_mem_nil c)

lemma parseIntChars_intToChars (i : Int) : parseIntChars (trimChars (intToChars i)) = some i := by
  rw [trimChars_eq_self _ (no_space_intToChars i)]
  unfold intToChars
  by_cases hi : i < 0
  · rw [if_pos hi]
    have : parseIntChars ('-' :: natDecimal i.natAbs)
        = (parseDigits (natDecimal i.natAbs)).map (fun n => -(n : Int)) := rfl
    rw [this, parseDigits_natDecimal]
    show some (-(i.natAbs : Int)) = some i
    congr 1
    omega
  · rw [if_neg hi]
    obtain ⟨m, tl', hm, hshape⟩ := natDecimalAux_shape i.toNat []
    have hparse : parseDigits (natDecimal i.toNat) = some i.toNat := parseDigits_natDecimal _
    unfold natDecimal at hparse ⊢
    rw [hshape] at hparse ⊢
    have hminus : digitChar m ≠ '-' := by
      interval_cases m <;> decide
    have hplus : digitChar m ≠ '+' := by
      interval_cases m <;> decide
    rw [parseIntChars, if_neg hminus, if_neg hplus, hparse]
    show some ((i.toNat : Int)) = some i
    congr 1
    omega

/-! ### `scripts/manage.ts`: PID registry and lifecycle actions

Observable effects of an action are recorded as a trace. The vocabulary is
deliberately wider than what the code emits (`livenessPoll`, `warnTimeout`)
so that claims about polling and timeout warnings are expressible. -/

inductive Eff where
  | signalTerm (pid : Int)
  | livenessPoll (pid : Int)
  | warnTimeout
  | clearPid
  | reportNotRunning
  | reportSentTerm (pid : Int)
  | reportAlreadyRunning (pid : Int)
  | spawnChild
  | reportStarted (pid : Int)
  | errorSpawnFailed
  deriving DecidableEq

def isLivenessPoll : Eff → Bool
  | Eff.livenessPoll _ => true
  | _ => false

def isWarn : Eff → Bool
  | Eff.warnTimeout => true
  | _ => false

def isSpawn : Eff → Bool
  | Eff.spawnChild => true
  | _ => false

/-- Number of child processes spawned along a trace. -/
def spawnCount (tr : List Eff) : Nat := (tr.filter isSpawn).length

/-- `writePidFile` from manage.ts: the pid file content becomes the decimal
rendering of the pid. -/
def writePidFile (pid : Int) : Option (List Char) := some (intToChars pid)

/-- `readPidFile` from manage.ts: `none` when the file is absent or the
trimmed content does not parse to a (finite) number. -/
def readPidFile (file : Option (List Char)) : Option Int :=
  match file with
  | none => none
  | some content => parseIntChars (trimChars content)

/-- `isProcessRunning` from manage.ts: JS `!pid` short-circuits to false only
for absent input and pid 0; any other pid is probed against the OS process
table via `process.kill(pid, 0)`, modelled by the oracle `alive`. -/
def isProcessRunning (alive : Int → Bool) : Option Int → Bool
  | none => false
  | some pid => if pid = 0 then false else alive pid

/-- `stopServer` from manage.ts: read the pid file; when the pid is not live,
clear the file and report not-running; when live, send `SIGTERM`, report it,
and clear the file. Returns the effect trace, the resulting pid-file content
and the exit code. -/
def stopServer (alive : Int → Bool) (pidFile : Option (List Char)) :
    List Eff × Option (List Char) × Nat :=
  match readPidFile pidFile with
  | none => ([Eff.clearPid, Eff.reportNotRunning], none, 0)
  | some p =>
    if isProcessRunning alive (some p) then
      ([Eff.signalTerm p, Eff.reportSentTerm p, Eff.clearPid], none, 0)
    else
      ([Eff.clearPid, Eff.reportNotRunning], none, 0)

/-- The spawn phase of `startServer`: a falsy child pid (`none`, or 0) exits
with code 1 without writing the pid file; otherwise the pid file is written
and the start is reported. -/
def startSpawn (spawnedPid : Option Int) (pidFile : Option (List Char)) :
    List Eff × Option (List Char) × Nat :=
  match spawnedPid with
  | none => ([Eff.spawnChild, Eff.errorSpawnFailed], pidFile, 1)
  | some cpid =>
    if cpid = 0 then ([Eff.spawnChild, Eff.errorSpawnFailed], pidFile, 1)
    else ([Eff.spawnChild, Eff.reportStarted cpid], writePidFile cpid, 0)

/-- `startServer` from manage.ts: when the persisted pid is live the action
is a no-op report; otherwise the child is spawned. `spawnedPid` is the pid of
the process handle obtained from `spawn` (`none`: no handle). -/
def startServer (alive : Int → Bool) (spawnedPid : Option Int) (pidFile : Option (List Char)) :
    List Eff × Option (List Char) × Nat :=
  match readPidFile pidFile with
  | some p =>
    if isProcessRunning alive (some p) then ([Eff.reportAlreadyRunning p], pidFile, 0)
    else startSpawn spawnedPid pidFile
  | none => startSpawn spawnedPid pidFile

/-! ### `src/index.ts`: port persistence, allocation and release-wait -/

def PORT_RANGE_START : Nat := 41000
def PORT_RANGE_END : Nat := 41999
def PORT_RELEASE_TIMEOUT_MS : Nat := 10000
def PORT_POLL_INTERVAL_MS : Nat := 50

/-- The error thrown by `findAvailablePort` when the range is exhausted. -/
inductive AllocError where
  | exhaustedRange
  deriving DecidableEq

/-- The size of the allocation range, as computed in `findAvailablePort`. -/
def rangeSize : Nat := PORT_RANGE_END - PORT_RANGE_START + 1

/-- The loop of `findAvailablePort`; `fuel = rangeSize - attempts`. Returns
the outcome paired with the number of probes of `isPortAvailable` performed.
`avail` is the availability assignment probed. -/
def findAvailablePortGo (avail : Nat → Bool) : Nat → Nat → Except AllocError Nat × Nat
  | _, 0 => (Except.error AllocError.exhaustedRange, 0)
  | port, fuel + 1 =>
    if avail port then (Except.ok port, 1)
    else
      let r := findAvailablePortGo avail
        (if port = PORT_RANGE_END then PORT_RANGE_START else port + 1) fuel
      (r.1, r.2 + 1)

/-- `findAvailablePort` from index.ts: scan the range starting at
`PORT_RANGE_START` with wraparound, at most `rangeSize` probes, then throw. -/
def findAvailablePort (avail : Nat → Bool) : Except AllocError Nat :=
  (findAvailablePortGo avail PORT_RANGE_START rangeSize).1

/-- Number of availability probes performed by `findAvailablePort`. -/
def findAvailablePortProbes (avail : Nat → Bool) : Nat :=
  (findAvailablePortGo avail PORT_RANGE_START rangeSize).2

/-- `readPersistedPort` from index.ts: `none` when the file is absent, the
content does not parse, or the value lies outside the configured range. -/
def readPersistedPort (file : Option (List Char)) : Option Int :=
  match file with
  | none => none
  | some contents =>
    match parseIntChars (trimChars contents) with
    | none => none
    | some parsed =>
      if parsed < (PORT_RANGE_START : Int) ∨ (PORT_RANGE_END : Int) < parsed then none
      else some parsed

/-- The loop of `waitForPortRelease`, with discrete time: `availAtTime t` is
the probe result at elapsed time `t`; poll every `PORT_POLL_INTERVAL_MS`
while `elapsed < timeoutMs`, then return one final probe. -/
def waitForPortReleaseGo (availAtTime : Nat → Bool) (timeoutMs elapsed : Nat) : Bool :=
  if _h : elapsed < timeoutMs then
    if availAtTime elapsed then true
    else waitForPortReleaseGo availAtTime timeoutMs (elapsed + PORT_POLL_INTERVAL_MS)
  else availAtTime elapsed
termination_by timeoutMs - elapsed
decreasing_by simp only [PORT_POLL_INTERVAL_MS]; omega

/-- `waitForPortRelease` from index.ts. -/
def waitForPortRelease (availAtTime : Nat → Bool) (timeoutMs : Nat) : Bool :=
  waitForPortReleaseGo availAtTime timeoutMs 0

/-- The port-selection prefix of `start` in index.ts: reuse the persisted
port when it frees up within `PORT_RELEASE_TIMEOUT_MS`, otherwise fall back
to a fresh `findAvailablePort` scan. `availAt p t` is the probe result for
port `p` at elapsed time `t` during the release wait; `avail` is the
availability assignment seen by the allocation scan. -/
def startSelectPort (file : Option (List Char)) (availAt : Int → Nat → Bool)
    (avail : Nat → Bool) : Except AllocError Int :=
  match readPersistedPort file with
  | some port =>
    if waitForPortRelease (availAt port) PORT_RELEASE_TIMEOUT_MS then Except.ok port
    else (findAvailablePort avail).map (fun n => (n : Int))
  | none => (findAvailablePort avail).map (fun n => (n : Int))

/-! ### Lemmas about the port allocator -/

lemma findAvailablePortGo_none (avail : Nat → Bool)
    (h : ∀ p, PORT_RANGE_START ≤ p → p ≤ PORT_RANGE_END → avail p = false) :
    ∀ fuel port, PORT_RANGE_START ≤ port → port ≤ PORT_RANGE_END →
      findAvailablePortGo avail port fuel = (Except.error AllocError.exhaustedRange, fuel) := by
  intro fuel
  induction fuel with
  | zero => intro port _ _; rfl
  | succ n ih =>
    intro port h1 h2
    rw [findAvailablePortGo, h port h1 h2]
    simp only [Bool.false_eq_true, if_false]
    by_cases hp : port = PORT_RANGE_END
    · rw [if_pos hp, ih PORT_RANGE_START le_rfl (by norm_num [PORT_RANGE_START, PORT_RANGE_END])]
    · rw [if_neg hp, ih (port + 1) (by omega) (by omega)]

lemma findAvailablePortGo_finds (avail : Nat → Bool) :
    ∀ fuel port, fuel + port = PORT_RANGE_END + 1 →
      (∃ p, port ≤ p ∧ p ≤ PORT_RANGE_END ∧ avail p = true) →
      ∃ q, (findAvailablePortGo avail port fuel).1 = Except.ok q ∧
        avail q = true ∧ port ≤ q ∧ q ≤ PORT_RANGE_END ∧
        ∀ r, port ≤ r → r < q → avail r = false := by
  intro fuel
  induction fuel with
  | zero =>
    intro port hpf hex
    obtain ⟨p, hp1, hp2, _⟩ := hex
    omega
  | succ n ih =>
    intro port hpf hex
    rw [findAvailablePortGo]
    by_cases ha : avail port = true
    · refine ⟨port, by rw [ha]; rfl, ha, le_rfl, by omega, fun r hr1 hr2 => absurd hr1 (by omega)⟩
    · have haf : avail port = false := by simpa using ha
      obtain ⟨p, hp1, hp2, hp3⟩ := hex
      have hpne : p ≠ port := fun he => by rw [he, haf] at hp3; cases hp3
      have hne : port ≠ PORT_RANGE_END := by omega
      obtain ⟨q, hq1, hq2, hq3, hq4, hq5⟩ :=
        ih (port + 1) (by omega) ⟨p, by omega, hp2, hp3⟩
      refine ⟨q, ?_, hq2, by omega, hq4, ?_⟩
      · rw [haf]
        simp only [Bool.false_eq_true, if_false, if_neg hne]
        exact hq1
      · intro r hr1 hr2
        rcases Nat.eq_or_lt_of_le hr1 with he | hl
        · rw [← he]; exact haf
        · exact hq5 r hl hr2

/-! ### Lemmas about the release wait -/

lemma poll_interval_eq : PORT_POLL_INTERVAL_MS = 50 := rfl

lemma waitForPortReleaseGo_after (availAtTime : Nat → Bool) (timeoutMs : Nat)
    (h : ∀ t, t < timeoutMs → availAtTime t = false) :
    ∀ fuel elapsed, timeoutMs ≤ elapsed + fuel * 50 →
      ∃ T, timeoutMs ≤ T ∧ waitForPortReleaseGo availAtTime timeoutMs elapsed = availAtTime T := by
  intro fuel
  induction fuel with
  | zero =>
    intro elapsed hb
    rw [waitForPortReleaseGo, dif_neg (by omega)]
    exact ⟨elapsed, by omega, rfl⟩
  | succ n ih =>
    intro elapsed hb
    rw [waitForPortReleaseGo]
    by_cases hlt : elapsed < timeoutMs
    · rw [dif_pos hlt, h elapsed hlt]
      simp only [Bool.false_eq_true, if_false, poll_interval_eq]
      exact ih (elapsed + 50) (by omega)
    · rw [dif_neg hlt]
      exact ⟨elapsed, by omega, rfl⟩

/-! ### Claim theorems -/

/-- C2: on an availability assignment with no available port in
`[PORT_RANGE_START, PORT_RANGE_END]`, `findAvailablePort` performs exactly
`PORT_RANGE_END - PORT_RANGE_START + 1` probes and fails with the
exhausted-range error. -/
theorem allocate_exhausted_range (avail : Nat → Bool)
    (h : ∀ p, PORT_RANGE_START ≤ p → p ≤ PORT_RANGE_END → avail p = false) :
    findAvailablePort avail = Except.error AllocError.exhaustedRange ∧
    findAvailablePortProbes avail = PORT_RANGE_END - PORT_RANGE_START + 1 := by
  have hg := findAvailablePortGo_none avail h rangeSize PORT_RANGE_START le_rfl
    (by norm_num [PORT_RANGE_START, PORT_RANGE_END])
  constructor
  · rw [findAvailablePort, hg]
  · rw [findAvailablePortProbes, hg]; rfl

theorem allocate_exhausted_range_witness :
    findAvailablePort (fun _ => false) = Except.error AllocError.exhaustedRange ∧
    findAvailablePortProbes (fun _ => false) = PORT_RANGE_END - PORT_RANGE_START + 1 :=
  allocate_exhausted_range (fun _ => false) (fun _ _ _ => rfl)

/-- C3: when some port in `[PORT_RANGE_START, PORT_RANGE_END]` is available,
`findAvailablePort` returns an available (never a bound) port of the range,
and every in-range port below it is unavailable: the lowest available one. -/
theorem allocate_lowest_available (avail : Nat → Bool)
    (h : ∃ p, PORT_RANGE_START ≤ p ∧ p ≤ PORT_RANGE_END ∧ avail p = true) :
    ∃ q, findAvailablePort avail = Except.ok q ∧ avail q = true ∧
      PORT_RANGE_START ≤ q ∧ q ≤ PORT_RANGE_END ∧
      ∀ r, PORT_RANGE_START ≤ r → r < q → avail r = false := by
  exact findAvailablePortGo_finds avail rangeSize PORT_RANGE_START
    (by norm_num [rangeSize, PORT_RANGE_START, PORT_RANGE_END]) h

theorem allocate_lowest_available_witness :
    ∃ q, findAvailablePort (fun p => decide (41005 ≤ p)) = Except.ok q ∧
      decide (41005 ≤ q) = true ∧
      PORT_RANGE_START ≤ q ∧ q ≤ PORT_RANGE_END ∧
      ∀ r, PORT_RANGE_START ≤ r → r < q → decide (41005 ≤ r) = false :=
  allocate_lowest_available (fun p => decide (41005 ≤ p))
    ⟨41005, by norm_num [PORT_RANGE_START], by norm_num [PORT_RANGE_END], by decide⟩

/-- C10: `waitForPortRelease` terminates with a Boolean; when no poll inside
the window succeeds, the returned value is the result of one final probe
performed at a time at or after the timeout — so a port that becomes free
exactly at expiry is still reported as released. -/
theorem waitForPortRelease_final_probe (availAtTime : Nat → Bool) (timeoutMs : Nat)
    (h : ∀ t, t < timeoutMs → availAtTime t = false) :
    ∃ T, timeoutMs ≤ T ∧ waitForPortRelease availAtTime timeoutMs = availAtTime T :=
  waitForPortReleaseGo_after availAtTime timeoutMs h timeoutMs 0 (by omega)

theorem waitForPortRelease_final_probe_witness :
    ∃ T, 100 ≤ T ∧ waitForPortRelease (fun t => decide (100 ≤ t)) 100
      = (fun t : Nat => decide (100 ≤ t)) T :=
  waitForPortRelease_final_probe (fun t => decide (100 ≤ t)) 100
    (fun t ht => decide_eq_false (by omega))

/-- Round trip of the PID registry, shared helper. -/
lemma readPidFile_writePidFile (pid : Int) : readPidFile (writePidFile pid) = some pid :=
  parseIntChars_intToChars pid

/-- C1 counterexample: as stated the claim requires `stop`, on a live
persisted pid, to poll liveness after signalling (until exit or a
`PROCESS_EXIT_TIMEOUT`); with a pid file holding the live pid 1 the stop
trace contains no liveness poll at all (and no timeout warning). -/
theorem stop_polls_until_exit_counterexample :
    ¬ (∀ (alive : Int → Bool) (pidFile : Option (List Char)),
        isProcessRunning alive (readPidFile pidFile) = true →
        ∃ e ∈ (stopServer alive pidFile).1, isLivenessPoll e = true) := by
  intro hclaim
  obtain ⟨e, he, hp⟩ := hclaim (fun _ => true) (some ['1']) (by decide)
  have htr : (stopServer (fun _ => true) (some ['1'])).1
      = [Eff.signalTerm 1, Eff.reportSentTerm 1, Eff.clearPid] := by decide
  rw [htr] at he
  rcases List.mem_cons.mp he with h1 | h1
  · rw [h1] at hp; cases hp
  rcases List.mem_cons.mp h1 with h2 | h2
  · rw [h2] at hp; cases hp
  rcases List.mem_cons.mp h2 with h3 | h3
  · rw [h3] at hp; cases hp
  · exact absurd h3 (List.not_mem_nil e)

/-- C1 amended: when the persisted pid is live, `stop` delivers `SIGTERM`,
reports it, clears the PidRecord and completes with exit code 0 immediately —
with no liveness polling and no exit-timeout wait or warning. -/
theorem stop_signals_and_completes_immediately (alive : Int → Bool)
    (pidFile : Option (List Char)) (p : Int)
    (hread : readPidFile pidFile = some p)
    (hlive : isProcessRunning alive (some p) = true) :
    stopServer alive pidFile = ([Eff.signalTerm p, Eff.reportSentTerm p, Eff.clearPid], none, 0) ∧
    (∀ e ∈ (stopServer alive pidFile).1, isLivenessPoll e = false ∧ isWarn e = false) := by
  have hs : stopServer alive pidFile
      = ([Eff.signalTerm p, Eff.reportSentTerm p, Eff.clearPid], none, 0) := by
    rw [stopServer, hread]
    exact if_pos hlive
  refine ⟨hs, ?_⟩
  rw [hs]
  intro e he
  rcases List.mem_cons.mp he with h1 | h1
  · rw [h1]; exact ⟨rfl, rfl⟩
  rcases List.mem_cons.mp h1 with h2 | h2
  · rw [h2]; exact ⟨rfl, rfl⟩
  rcases List.mem_cons.mp h2 with h3 | h3
  · rw [h3]; exact ⟨rfl, rfl⟩
  · exact absurd h3 (List.not_mem_nil e)

theorem stop_signals_and_completes_immediately_witness :
    stopServer (fun _ => true) (some ['1'])
      = ([Eff.signalTerm 1, Eff.reportSentTerm 1, Eff.clearPid], none, 0) ∧
    (∀ e ∈ (stopServer (fun _ => true) (some ['1'])).1,
      isLivenessPoll e = false ∧ isWarn e = false) :=
  stop_signals_and_completes_immediately (fun _ => true) (some ['1']) 1 (by decide) (by decide)

/-- C4: a persisted port value that is unparsable or out of the configured
range `[41000, 41999]` is read as absent, and `start` then performs a fresh
`findAvailablePort` scan instead of attempting to reuse the persisted port. -/
theorem persisted_port_invalid_fresh_scan (contents : List Char)
    (availAt : Int → Nat → Bool) (avail : Nat → Bool)
    (h : ∀ n, parseIntChars (trimChars contents) = some n →
      n < (PORT_RANGE_START : Int) ∨ (PORT_RANGE_END : Int) < n) :
    readPersistedPort (some contents) = none ∧
    startSelectPort (some contents) availAt avail
      = (findAvailablePort avail).map (fun n => (n : Int)) := by
  have hr : readPersistedPort (some contents) = none := by
    rw [readPersistedPort]
    cases hp : parseIntChars (trimChars contents) with
    | none => rfl
    | some n => exact if_pos (h n hp)
  exact ⟨hr, by rw [startSelectPort, hr]⟩

theorem persisted_port_invalid_fresh_scan_witness :
    readPersistedPort (some ['9', '9', '9', '9', '9']) = none ∧
    startSelectPort (some ['9', '9', '9', '9', '9']) (fun _ _ => true) (fun _ => true)
      = (findAvailablePort (fun _ => true)).map (fun n => (n : Int)) := by
  refine persisted_port_invalid_fresh_scan _ _ _ (fun n hn => ?_)
  have hv : parseIntChars (trimChars ['9', '9', '9', '9', '9']) = some (99999 : Int) := by decide
  rw [hv] at hn
  cases hn
  right
  decide

/-- C5: `start` with a live persisted pid spawns nothing and is a pure no-op
report; from a stopped state, two successive starts (the child of the first
staying alive) spawn exactly one process, the second being the no-op. -/
theorem start_idempotent (alive : Int → Bool) (pidFile : Option (List Char)) (p : Int)
    (hstopped : isProcessRunning alive (readPidFile pidFile) = false)
    (hp : p ≠ 0) (hlive : alive p = true) :
    spawnCount (startServer alive (some p) pidFile).1 = 1 ∧
    startServer alive (some p) (startServer alive (some p) pidFile).2.1
      = ([Eff.reportAlreadyRunning p], (startServer alive (some p) pidFile).2.1, 0) ∧
    spawnCount (startServer alive (some p) pidFile).1
      + spawnCount (startServer alive (some p) (startServer alive (some p) pidFile).2.1).1
      = 1 := by
  have hfirst : startServer alive (some p) pidFile
      = ([Eff.spawnChild, Eff.reportStarted p], writePidFile p, 0) := by
    have hsp : startSpawn (some p) pidFile
        = ([Eff.spawnChild, Eff.reportStarted p], writePidFile p, 0) := by
      rw [startSpawn, if_neg hp]
    cases hcase : readPidFile pidFile with
    | none =>
      rw [startServer, hcase]
      exact hsp
    | some q =>
      rw [hcase] at hstopped
      rw [startServer, hcase]
      exact (if_neg (by rw [hstopped]; exact Bool.false_ne_true)).trans hsp
  have hliverun : isProcessRunning alive (some p) = true := by
    rw [isProcessRunning, if_neg hp, hlive]
  have hsecond : startServer alive (some p) (writePidFile p)
      = ([Eff.reportAlreadyRunning p], writePidFile p, 0) := by
    rw [startServer, readPidFile_writePidFile]
    exact if_pos hliverun
  refine ⟨by rw [hfirst]; rfl, ?_, ?_⟩
  · rw [hfirst, hsecond]
  · rw [hfirst, hsecond]
    rfl

theorem start_idempotent_witness :
    spawnCount (startServer (fun q => decide (q = 7)) (some 7) none).1 = 1 ∧
    startServer (fun q => decide (q = 7)) (some 7)
        (startServer (fun q => decide (q = 7)) (some 7) none).2.1
      = ([Eff.reportAlreadyRunning 7],
          (startServer (fun q => decide (q = 7)) (some 7) none).2.1, 0) ∧
    spawnCount (startServer (fun q => decide (q = 7)) (some 7) none).1
      + spawnCount (startServer (fun q => decide (q = 7)) (some 7)
          (startServer (fun q => decide (q = 7)) (some 7) none).2.1).1
      = 1 :=
  start_idempotent (fun q => decide (q = 7)) none 7 (by decide) (by decide) (by decide)

/-- C6: every `stop` leaves the pid file absent; when no live pid exists the
action only clears any stale record and reports already-stopped, exit 0. -/
theorem stop_clears_pid_record (alive : Int → Bool) (pidFile : Option (List Char)) :
    (stopServer alive pidFile).2.1 = none ∧
    (isProcessRunning alive (readPidFile pidFile) = false →
      stopServer alive pidFile = ([Eff.clearPid, Eff.reportNotRunning], none, 0)) := by
  constructor
  · rw [stopServer]
    cases readPidFile pidFile with
    | none => rfl
    | some p =>
      by_cases hl : isProcessRunning alive (some p) = true
      · exact congrArg (fun x : List Eff × Option (List Char) × Nat => x.2.1) (if_pos hl)
      · exact congrArg (fun x : List Eff × Option (List Char) × Nat => x.2.1) (if_neg hl)
  · intro hdead
    cases hcase : readPidFile pidFile with
    | none => rw [stopServer, hcase]
    | some p =>
      rw [hcase] at hdead
      rw [stopServer, hcase]
      exact if_neg (by rw [hdead]; exact Bool.false_ne_true)

theorem stop_clears_pid_record_witness :
    (stopServer (fun _ => false) (some ['9'])).2.1 = none ∧
    (isProcessRunning (fun _ => false) (readPidFile (some ['9'])) = false →
      stopServer (fun _ => false) (some ['9'])
        = ([Eff.clearPid, Eff.reportNotRunning], none, 0)) :=
  stop_clears_pid_record (fun _ => false) (some ['9'])

/-- C7: writing a pid and reading it back yields the same pid; a missing file
or content that does not parse to a number reads as absent. -/
theorem pid_write_read_roundtrip (pid : Int) (content : List Char)
    (hc : parseIntChars (trimChars content) = none) :
    readPidFile (writePidFile pid) = some pid ∧
    readPidFile none = none ∧
    readPidFile (some content) = none :=
  ⟨readPidFile_writePidFile pid, rfl, hc⟩

theorem pid_write_read_roundtrip_witness :
    readPidFile (writePidFile (-42)) = some (-42) ∧
    readPidFile none = none ∧
    readPidFile (some ['a', 'b', 'c']) = none :=
  pid_write_read_roundtrip (-42) ['a', 'b', 'c'] (by decide)

/-- C8: when `spawn` yields no process handle, `start` exits with code 1 and
does not write a PidRecord — the pid file is left unchanged. -/
theorem spawn_failure_no_pid_write (alive : Int → Bool) (pidFile : Option (List Char))
    (hstopped : isProcessRunning alive (readPidFile pidFile) = false) :
    startServer alive none pidFile = ([Eff.spawnChild, Eff.errorSpawnFailed], pidFile, 1) := by
  cases hcase : readPidFile pidFile with
  | none =>
    rw [startServer, hcase]
    exact rfl
  | some q =>
    rw [hcase] at hstopped
    rw [startServer, hcase]
    exact if_neg (by rw [hstopped]; exact Bool.false_ne_true)

theorem spawn_failure_no_pid_write_witness :
    startServer (fun _ => false) none none
      = ([Eff.spawnChild, Eff.errorSpawnFailed], none, 1) :=
  spawn_failure_no_pid_write (fun _ => false) none (by decide)

/-- C9 counterexample: the claim demands `isProcessRunning` be false for
every pid ≤ 0, but only pid 0 (and absent input) short-circuit; with an OS
oracle reporting pid -1 signalable, the probe returns true. -/
theorem isAlive_negative_pid_counterexample :
    ¬ (∀ (alive : Int → Bool) (pid : Int), pid ≤ 0 →
        isProcessRunning alive (some pid) = false) := by
  intro h
  have h1 := h (fun _ => true) (-1) (by norm_num)
  have h2 : isProcessRunning (fun _ => true) (some (-1)) = true := by decide
  rw [h1] at h2
  cases h2

/-- C9 amended: `isProcessRunning` is false for absent input and for pid 0;
for any nonzero pid (negative pids included) it returns exactly the host OS
signalability probe. -/
theorem isAlive_probe_semantics (alive : Int → Bool) (pid : Int) (hp : pid ≠ 0) :
    isProcessRunning alive none = false ∧
    isProcessRunning alive (some 0) = false ∧
    isProcessRunning alive (some pid) = alive pid := by
  refine ⟨rfl, rfl, ?_⟩
  rw [isProcessRunning, if_neg hp]

theorem isAlive_probe_semantics_witness :
    isProcessRunning (fun _ => true) none = false ∧
    isProcessRunning (fun _ => true) (some 0) = false ∧
    isProcessRunning (fun _ => true) (some (-1)) = (fun _ : Int => true) (-1) :=
  isAlive_probe_semantics (fun _ => true) (-1) (by decide)

end CustomWallet
